import Mathlib

/-!
Verification of the ghproxy ghcache transport layer
(src/ghproxy/ghcache/ghcache.go) against its specification.

The Go code is shallowly embedded: http.Header reads/writes of the fixed
header keys the code touches become fields of a `Headers` record (Go's
`Header.Get` returns `""` for an absent header, so the empty string models
absence, exactly as the code itself tests `!= ""`); a `http.RoundTripper`
delegate becomes an explicit `Except`/function argument; Prometheus gauges
become an explicit `GaugeState`; metric collection calls become an emitted
event list; the filesystem seen by `Prune` becomes explicit lists of
partition-directory records carrying the outcome of reading their metadata
file.
-/

/-- Go `error` values: only their identity matters to the embedded code,
which never inspects an error it propagates. -/
structure GoError where
  msg : String
deriving DecidableEq

/-- The one aspect of a Go `context.Context` the claims are about: whether
its cancellation signal has fired. -/
structure GoContext where
  cancelled : Bool
deriving DecidableEq

/-- `context.Background()`: a context that is never cancelled. -/
def contextBackground : GoContext := ⟨false⟩

/-- The response headers ghcache.go reads or writes, with `""` for an
absent header (Go's `Header.Get` convention). `status` is the "Status"
header, `conditionalRequest` is "X-Conditional-Request", `creationDate` is
"X-PROW-REQUEST-DATE" (cacheEntryCreationDateHeader). -/
structure Headers where
  cacheControl : String
  status : String
  conditionalRequest : String
  creationDate : String
deriving DecidableEq

/-- The parts of an `*http.Request` the embedded code reads. -/
structure Request where
  urlPath : String
  urlString : String
  ifNoneMatch : String
  tokenBudget : String
  userAgent : String
  ctx : GoContext
deriving DecidableEq

/-- The parts of an `*http.Response` the embedded code reads or writes. -/
structure Response where
  statusCode : Nat
  header : Headers
deriving DecidableEq

/-- Go `strings.Contains` on character lists: true iff the second list is a
contiguous sublist of the first (and always true for the empty pattern). -/
def listContainsSub : List Char → List Char → Bool
  | _, [] => true
  | [], _ => false
  | c :: rest, sub => sub.isPrefixOf (c :: rest) || listContainsSub rest sub

/-- Go `strings.Contains` on strings. -/
def goContains (s sub : String) : Bool := listContainsSub s.data sub.data

/-- Go `strings.HasPrefix`. -/
def goHasPrefix (s pre : String) : Bool := pre.data.isPrefixOf s.data

/-- The `CacheResponseMode` constants of ghcache.go. -/
inductive CacheResponseMode
  | ModeError
  | ModeNoStore
  | ModeMiss
  | ModeChanged
  | ModeCoalesced
  | ModeRevalidated
deriving DecidableEq

open CacheResponseMode

/-- `cacheResponseMode` (ghcache.go lines 127-138): classify a response by
its headers. -/
def cacheResponseMode (headers : Headers) : CacheResponseMode :=
  if goContains headers.cacheControl "no-store" then ModeNoStore
  else if goContains headers.status "304 Not Modified" then ModeRevalidated
  else if headers.conditionalRequest ≠ "" then ModeChanged
  else ModeMiss

/-- Claim C4: for every response header map, the classifier returns exactly
one of NO-STORE, REVALIDATED, CHANGED, MISS, evaluated in that precedence
order (Cache-Control containing "no-store" first, then a Status containing
"304 Not Modified", then a non-empty conditional-request marker, then
MISS); it never returns ERROR (nor COALESCED). It is a pure function, so it
has no side effects. -/
theorem cacheResponseMode_classifies (h : Headers) :
    (cacheResponseMode h = ModeNoStore ∨ cacheResponseMode h = ModeRevalidated ∨
      cacheResponseMode h = ModeChanged ∨ cacheResponseMode h = ModeMiss)
    ∧ cacheResponseMode h ≠ ModeError
    ∧ cacheResponseMode h ≠ ModeCoalesced
    ∧ cacheResponseMode h =
        (if goContains h.cacheControl "no-store" then ModeNoStore
         else if goContains h.status "304 Not Modified" then ModeRevalidated
         else if h.conditionalRequest ≠ "" then ModeChanged
         else ModeMiss) := by
  unfold cacheResponseMode
  refine ⟨?_, ?_, ?_, rfl⟩ <;> split <;> try split <;> try split
  all_goals simp

/-- The metric calls ghcache.go makes, as events. `requestTimeout` is
`ghmetrics.CollectRequestTimeoutMetrics`, `tokenUsage` is
`ghmetrics.CollectGitHubTokenMetrics`, `requestMetrics` is
`ghmetrics.CollectGitHubRequestMetrics`. Timing arguments are omitted: the
metrics boundary is fire-and-forget and no claim is about latencies. -/
inductive MetricEvent
  | requestTimeout (tokenBudgetName urlPath userAgent : String)
  | tokenUsage (tokenBudgetName apiVersion : String)
  | requestMetrics (tokenBudgetName urlPath statusCode userAgent : String)
deriving DecidableEq

/-- What `upstreamTransport.RoundTrip` returns and emits. `delegateCalls`
counts invocations of the wrapped delegate (the code is straight-line and
calls it exactly once on every path — the field records that structurally). -/
structure UpstreamResult where
  resp : Option Response
  err : Option GoError
  events : List MetricEvent
  delegateCalls : Nat
deriving DecidableEq

/-- `upstreamTransport.RoundTrip` (ghcache.go lines 178-222). The delegate's
outcome for this request is passed as `delegateResult` (the one call the code
makes), the hasher as a function, and `time.Now().Unix()` as `nowUnix`. -/
def upstreamRoundTrip (hasher : Request → String) (nowUnix : Int)
    (req : Request) (delegateResult : Except GoError Response) : UpstreamResult :=
  let etag := req.ifNoneMatch
  let tokenBudgetName := if req.tokenBudget ≠ "" then req.tokenBudget else hasher req
  match delegateResult with
  | .error e =>
      { resp := none, err := some e,
        events := [.requestTimeout tokenBudgetName req.urlPath req.userAgent],
        delegateCalls := 1 }
  | .ok resp0 =>
      let h1 : Headers :=
        if resp0.statusCode ≥ 400 then
          { resp0.header with cacheControl := "no-store" }
        else
          let h := { resp0.header with cacheControl := "no-cache" }
          if resp0.statusCode ≠ 304 then { h with creationDate := toString nowUnix }
          else h
      let h2 : Headers :=
        if etag ≠ "" then { h1 with conditionalRequest := etag } else h1
      let isGraphql :=
        goHasPrefix req.urlPath "graphql" || goHasPrefix req.urlPath "/graphql"
      let h3 : Headers :=
        if isGraphql then { h2 with cacheControl := "no-store" } else h2
      let apiVersion := if isGraphql then "v4" else "v3"
      { resp := some { statusCode := resp0.statusCode, header := h3 },
        err := none,
        events := [.tokenUsage tokenBudgetName apiVersion,
                   .requestMetrics tokenBudgetName req.urlPath
                     (toString resp0.statusCode) req.userAgent],
        delegateCalls := 1 }

/-- The Cache-Control header of the returned response, if any. -/
def respCacheControl (u : UpstreamResult) : Option String :=
  u.resp.map fun r => r.header.cacheControl

/-- The creation-timestamp header (X-PROW-REQUEST-DATE) of the returned
response, if any. -/
def respCreationDate (u : UpstreamResult) : Option String :=
  u.resp.map fun r => r.header.creationDate

/-- Claim C7: when the delegate round trip fails with a transport-level
error, `upstreamTransport.RoundTrip` reports exactly one metric — a request
timeout — and returns that same error unchanged together with a nil
response, after a single delegate invocation (no retry). -/
theorem upstream_transport_error_propagates (hasher : Request → String)
    (nowUnix : Int) (req : Request) (e : GoError) :
    upstreamRoundTrip hasher nowUnix req (.error e) =
      { resp := none, err := some e,
        events := [.requestTimeout
          (if req.tokenBudget ≠ "" then req.tokenBudget else hasher req)
          req.urlPath req.userAgent],
        delegateCalls := 1 } := rfl

/-- Claim C6 (amended statement is the claim itself): on a request whose URL
path begins with the graphql prefix (with or without the leading slash, as
the code tests), the returned response carries Cache-Control "no-store"
regardless of the upstream status code. -/
theorem upstream_graphql_always_no_store (hasher : Request → String)
    (nowUnix : Int) (req : Request) (resp : Response)
    (hg : (goHasPrefix req.urlPath "graphql" || goHasPrefix req.urlPath "/graphql") = true) :
    respCacheControl (upstreamRoundTrip hasher nowUnix req (.ok resp)) = some "no-store" := by
  simp only [upstreamRoundTrip, respCacheControl, hg]
  split <;> split <;> simp_all

/-- Witness for C6: a concrete graphql request with a 500 upstream response
still leaves with Cache-Control "no-store". -/
theorem upstream_graphql_always_no_store_witness :
    respCacheControl (upstreamRoundTrip (fun _ => "budget-hash") 11
      { urlPath := "/graphql", urlString := "https://api.github.com/graphql",
        ifNoneMatch := "", tokenBudget := "", userAgent := "ua",
        ctx := contextBackground }
      (.ok { statusCode := 500,
             header := { cacheControl := "", status := "500 Internal Server Error",
                         conditionalRequest := "", creationDate := "" } })) =
      some "no-store" :=
  upstream_graphql_always_no_store (fun _ => "budget-hash") 11 _ _ (by decide)

/-- Claim C10: on a graphql-path request whose upstream status is below 400
and not 304, the response leaves with both Cache-Control "no-store" (the
graphql override) and the creation-timestamp header stamped with the
current Unix time (set on the success branch before the override, which
replaces only Cache-Control). -/
theorem upstream_graphql_success_stamps_creation (hasher : Request → String)
    (nowUnix : Int) (req : Request) (resp : Response)
    (hg : (goHasPrefix req.urlPath "graphql" || goHasPrefix req.urlPath "/graphql") = true)
    (hlt : resp.statusCode < 400) (h304 : resp.statusCode ≠ 304) :
    respCacheControl (upstreamRoundTrip hasher nowUnix req (.ok resp)) = some "no-store"
    ∧ respCreationDate (upstreamRoundTrip hasher nowUnix req (.ok resp)) =
        some (toString nowUnix) := by
  have h1 : ¬ (resp.statusCode ≥ 400) := by omega
  simp only [upstreamRoundTrip, respCacheControl, respCreationDate, hg,
    if_neg h1, if_pos h304, ne_eq, h304, not_false_eq_true, ite_true]
  constructor <;> split <;> simp

/-- Witness for C10: a concrete graphql request with a 200 upstream response
leaves with Cache-Control "no-store" and the creation-timestamp header. -/
theorem upstream_graphql_success_stamps_creation_witness :
    respCacheControl (upstreamRoundTrip (fun _ => "budget-hash") 1509600000
      { urlPath := "graphql", urlString := "https://api.github.com/graphql",
        ifNoneMatch := "", tokenBudget := "tb", userAgent := "ua",
        ctx := contextBackground }
      (.ok { statusCode := 200,
             header := { cacheControl := "private", status := "200 OK",
                         conditionalRequest := "", creationDate := "" } })) =
        some "no-store"
    ∧ respCreationDate (upstreamRoundTrip (fun _ => "budget-hash") 1509600000
      { urlPath := "graphql", urlString := "https://api.github.com/graphql",
        ifNoneMatch := "", tokenBudget := "tb", userAgent := "ua",
        ctx := contextBackground }
      (.ok { statusCode := 200,
             header := { cacheControl := "private", status := "200 OK",
                         conditionalRequest := "", creationDate := "" } })) =
        some (toString (1509600000 : Int)) :=
  upstream_graphql_success_stamps_creation (fun _ => "budget-hash") 1509600000 _ _
    (by decide) (by decide) (by decide)

/-- Claim C3 as amended: on a non-graphql path, a status ≥ 400 yields
Cache-Control "no-store", a status 200 yields Cache-Control "no-cache" and
the creation-timestamp header stamped with the current Unix time, and a
status 304 yields Cache-Control "no-cache"; on the ≥ 400 and 304 branches
the transport does not touch the creation-timestamp header — it keeps
whatever value the upstream response carried (so it is absent exactly when
upstream did not send one). -/
theorem upstream_policy_headers (hasher : Request → String) (nowUnix : Int)
    (req : Request) (resp : Response)
    (hng : (goHasPrefix req.urlPath "graphql" || goHasPrefix req.urlPath "/graphql") = false) :
    (400 ≤ resp.statusCode →
      respCacheControl (upstreamRoundTrip hasher nowUnix req (.ok resp)) = some "no-store"
      ∧ respCreationDate (upstreamRoundTrip hasher nowUnix req (.ok resp)) =
          some resp.header.creationDate)
    ∧ (resp.statusCode = 200 →
      respCacheControl (upstreamRoundTrip hasher nowUnix req (.ok resp)) = some "no-cache"
      ∧ respCreationDate (upstreamRoundTrip hasher nowUnix req (.ok resp)) =
          some (toString nowUnix))
    ∧ (resp.statusCode = 304 →
      respCacheControl (upstreamRoundTrip hasher nowUnix req (.ok resp)) = some "no-cache"
      ∧ respCreationDate (upstreamRoundTrip hasher nowUnix req (.ok resp)) =
          some resp.header.creationDate) := by
  refine ⟨fun h400 => ?_, fun h200 => ?_, fun h304 => ?_⟩
  · simp only [upstreamRoundTrip, respCacheControl, respCreationDate, hng, if_pos h400]
    constructor <;> split <;> (try split) <;> simp_all
  · have h1 : ¬ (resp.statusCode ≥ 400) := by omega
    have h2 : resp.statusCode ≠ 304 := by omega
    simp only [upstreamRoundTrip, respCacheControl, respCreationDate, hng,
      if_neg h1, ne_eq, h2, not_false_eq_true, ite_true]
    constructor <;> split <;> (try split) <;> simp_all
  · have h1 : ¬ (resp.statusCode ≥ 400) := by omega
    simp only [upstreamRoundTrip, respCacheControl, respCreationDate, hng,
      if_neg h1, ne_eq, h304, not_true_eq_false, ite_false]
    constructor <;> split <;> (try split) <;> simp_all

/-- Witness for C3 (amended): a concrete non-graphql 200 response leaves
with Cache-Control "no-cache" and the creation-timestamp header. -/
theorem upstream_policy_headers_witness :
    respCacheControl (upstreamRoundTrip (fun _ => "budget-hash") 1509600000
      { urlPath := "/repos/org/repo", urlString := "https://api.github.com/repos/org/repo",
        ifNoneMatch := "", tokenBudget := "", userAgent := "ua",
        ctx := contextBackground }
      (.ok { statusCode := 200,
             header := { cacheControl := "private, max-age=60", status := "200 OK",
                         conditionalRequest := "", creationDate := "" } })) =
        some "no-cache"
    ∧ respCreationDate (upstreamRoundTrip (fun _ => "budget-hash") 1509600000
      { urlPath := "/repos/org/repo", urlString := "https://api.github.com/repos/org/repo",
        ifNoneMatch := "", tokenBudget := "", userAgent := "ua",
        ctx := contextBackground }
      (.ok { statusCode := 200,
             header := { cacheControl := "private, max-age=60", status := "200 OK",
                         conditionalRequest := "", creationDate := "" } })) =
        some (toString (1509600000 : Int)) :=
  (upstream_policy_headers (fun _ => "budget-hash") 1509600000 _ _ (by decide)).2.1 rfl

/-- Counterexample to claim C3 as stated: an upstream response with status
400 that itself carries a creation-timestamp header leaves the policy
transport with that header still present — the ≥ 400 branch only rewrites
Cache-Control and never removes the creation-timestamp header, so the
response does not leave "with no creation-timestamp header". -/
theorem upstream_policy_headers_cex :
    400 ≤ (400 : Nat)
    ∧ (goHasPrefix "/repos/org/repo" "graphql" || goHasPrefix "/repos/org/repo" "/graphql") = false
    ∧ respCreationDate (upstreamRoundTrip (fun _ => "budget-hash") 7
      { urlPath := "/repos/org/repo", urlString := "https://api.github.com/repos/org/repo",
        ifNoneMatch := "", tokenBudget := "", userAgent := "ua",
        ctx := contextBackground }
      (.ok { statusCode := 400,
             header := { cacheControl := "private", status := "400 Bad Request",
                         conditionalRequest := "", creationDate := "1509600000" } })) =
        some "1509600000"
    ∧ some "1509600000" ≠ (some "" : Option String) := by
  refine ⟨by decide, by decide, rfl, by decide⟩

/-- The two Prometheus gauges the throttling transport touches:
`pending_outbound_requests` and `concurrent_outbound_requests`. -/
structure GaugeState where
  pending : Int
  outbound : Int
deriving DecidableEq

/-- What `throttlingTransport.RoundTrip` returns and does. -/
structure ThrottleResult where
  resp : Option Response
  err : Option GoError
  gauges : GaugeState
  delegateCalled : Bool
deriving DecidableEq

/-- `throttlingTransport.RoundTrip` (ghcache.go lines 150-161). The
semaphore's behaviour depends on the concurrent environment, so the
`sem.Acquire` call is an oracle `acquire` mapping the context the code
passes to the call's outcome (`none` = acquired, possibly after blocking;
`some e` = the error `Acquire` returned). The code passes
`contextBackground` — `context.Background()` — not the request's own
context. The delegate's outcome is the pair `delegate req`. -/
def throttlingRoundTrip (acquire : GoContext → Option GoError)
    (delegate : Request → Option Response × Option GoError)
    (g : GaugeState) (req : Request) : ThrottleResult :=
  let g1 : GaugeState := { g with pending := g.pending + 1 }
  match acquire contextBackground with
  | some e =>
      { resp := none, err := some e, gauges := g1, delegateCalled := false }
  | none =>
      let g2 : GaugeState := { pending := g1.pending - 1, outbound := g1.outbound + 1 }
      let r := delegate req
      let g3 : GaugeState := { g2 with outbound := g2.outbound - 1 }
      { resp := r.1, err := r.2, gauges := g3, delegateCalled := true }

/-- Claim C2 as amended: admission is NOT cancelable via the caller's
cancellation signal — the transport acquires the semaphore with a
background context, so whether the delegate runs depends only on the
background-context acquisition outcome and is the same whatever the
caller's context says; and when acquisition fails the transport returns
that error with a nil response, without ever invoking the delegate. -/
theorem throttling_admission (acquire : GoContext → Option GoError)
    (delegate : Request → Option Response × Option GoError)
    (g : GaugeState) (req : Request) (c1 c2 : GoContext) :
    ((throttlingRoundTrip acquire delegate g { req with ctx := c1 }).delegateCalled =
      (throttlingRoundTrip acquire delegate g { req with ctx := c2 }).delegateCalled
      ∨ delegate { req with ctx := c1 } ≠ delegate { req with ctx := c2 })
    ∧ ((throttlingRoundTrip acquire delegate g req).delegateCalled = true ↔
        acquire contextBackground = none)
    ∧ (∀ e, acquire contextBackground = some e →
        throttlingRoundTrip acquire delegate g req =
          { resp := none, err := some e,
            gauges := { g with pending := g.pending + 1 }, delegateCalled := false }) := by
  refine ⟨?_, ?_, fun e he => ?_⟩
  · left
    simp only [throttlingRoundTrip]
    cases acquire contextBackground <;> rfl
  · simp only [throttlingRoundTrip]
    cases h : acquire contextBackground <;> simp [h]
  · simp only [throttlingRoundTrip, he]

/-- Witness for C2 (amended), at a failing acquisition oracle: the error is
returned, the delegate is not invoked. -/
theorem throttling_admission_witness :
    throttlingRoundTrip (fun _ => some ⟨"context canceled"⟩)
      (fun _ => (none, some ⟨"unreached"⟩)) ⟨0, 0⟩
      { urlPath := "/repos/org/repo", urlString := "u", ifNoneMatch := "",
        tokenBudget := "", userAgent := "ua", ctx := ⟨true⟩ } =
      { resp := none, err := some ⟨"context canceled"⟩,
        gauges := ⟨1, 0⟩, delegateCalled := false } :=
  (throttling_admission (fun _ => some ⟨"context canceled"⟩)
      (fun _ => (none, some ⟨"unreached"⟩)) ⟨0, 0⟩
      { urlPath := "/repos/org/repo", urlString := "u", ifNoneMatch := "",
        tokenBudget := "", userAgent := "ua", ctx := ⟨true⟩ }
      ⟨true⟩ ⟨true⟩).2.2 ⟨"context canceled"⟩ rfl

/-- Counterexample to claim C2 as stated: in an environment where the
semaphore has no free slot, so that an acquisition honouring a cancelled
context would abort with "context canceled" (the oracle errors exactly on a
cancelled context), a request whose own context IS cancelled is nonetheless
admitted — the code passes `context.Background()` to `sem.Acquire`, the
acquisition does not fail, and the delegate is invoked. Admission is
therefore not cancelable via the caller's cancellation signal. -/
theorem throttling_admission_cex :
    (fun ctx : GoContext => if ctx.cancelled then some (⟨"context canceled"⟩ : GoError) else none)
        ⟨true⟩ ≠ none
    ∧ (throttlingRoundTrip
        (fun ctx => if ctx.cancelled then some ⟨"context canceled"⟩ else none)
        (fun _ => (some { statusCode := 200,
                          header := { cacheControl := "", status := "200 OK",
                                      conditionalRequest := "", creationDate := "" } }, none))
        ⟨0, 0⟩
        { urlPath := "/repos/org/repo", urlString := "u", ifNoneMatch := "",
          tokenBudget := "", userAgent := "ua", ctx := ⟨true⟩ }).delegateCalled = true
    ∧ (throttlingRoundTrip
        (fun ctx => if ctx.cancelled then some ⟨"context canceled"⟩ else none)
        (fun _ => (some { statusCode := 200,
                          header := { cacheControl := "", status := "200 OK",
                                      conditionalRequest := "", creationDate := "" } }, none))
        ⟨0, 0⟩
        { urlPath := "/repos/org/repo", urlString := "u", ifNoneMatch := "",
          tokenBudget := "", userAgent := "ua", ctx := ⟨true⟩ }).err = none := by
  refine ⟨by decide, rfl, rfl⟩

/-- Claim C9: when semaphore acquisition fails, the pending-outbound gauge
incremented on entry is never decremented — the transport returns with the
gauge net one higher than on entry (the decrement sits only on the
successful-admission path), and the delegate is not called. -/
theorem throttling_failed_acquire_leaks_pending
    (acquire : GoContext → Option GoError)
    (delegate : Request → Option Response × Option GoError)
    (g : GaugeState) (req : Request) (e : GoError)
    (he : acquire contextBackground = some e) :
    (throttlingRoundTrip acquire delegate g req).gauges.pending = g.pending + 1
    ∧ (throttlingRoundTrip acquire delegate g req).delegateCalled = false := by
  simp [throttlingRoundTrip, he]

/-- Witness for C9: a concrete failing acquisition leaves the pending gauge
at one. -/
theorem throttling_failed_acquire_leaks_pending_witness :
    (throttlingRoundTrip (fun _ => some ⟨"semaphore error"⟩)
      (fun _ => (none, none)) ⟨0, 5⟩
      { urlPath := "/p", urlString := "u", ifNoneMatch := "", tokenBudget := "",
        userAgent := "ua", ctx := contextBackground }).gauges.pending = 0 + 1
    ∧ (throttlingRoundTrip (fun _ => some ⟨"semaphore error"⟩)
      (fun _ => (none, none)) ⟨0, 5⟩
      { urlPath := "/p", urlString := "u", ifNoneMatch := "", tokenBudget := "",
        userAgent := "ua", ctx := contextBackground }).delegateCalled = false :=
  throttling_failed_acquire_leaks_pending (fun _ => some ⟨"semaphore error"⟩)
    (fun _ => (none, none)) ⟨0, 5⟩
    { urlPath := "/p", urlString := "u", ifNoneMatch := "", tokenBudget := "",
      userAgent := "ua", ctx := contextBackground } ⟨"semaphore error"⟩ rfl

/-- The outcome of reading and deserializing a partition's metadata file,
as `Prune` sees it: the file may be unreadable (`ioutil.ReadFile` errors),
its contents may fail to parse (`json.Unmarshal` errors), or it may parse
to an `expires_at` instant (here in Unix seconds). -/
inductive MetaRead
  | unreadable
  | unparsable
  | parsed (expiresAt : Int)
deriving DecidableEq

/-- A directory entry of a cache root (`data` or `temp`) as `Prune`
enumerates it: its name, whether it is a directory, the outcome of reading
its metadata file, and whether `os.RemoveAll` on it would fail (the
filesystem environment). -/
structure PartitionDir where
  name : String
  isDir : Bool
  metadata : MetaRead
  removeFails : Bool
deriving DecidableEq

/-- The per-candidate decision of `Prune` (ghcache.go lines 281-305): a
deletion is attempted exactly for a directory whose metadata file was read
and parsed and whose `expires_at` is not strictly after `now`
(`metadata.ExpiresAt.After(now())` is the keep condition). -/
def pruneAttemptsDelete (now : Int) (p : PartitionDir) : Bool :=
  p.isDir &&
    match p.metadata with
    | .parsed expiresAt => !(expiresAt > now)
    | _ => false

/-- The deletions one sweep attempts on one root: every candidate is
considered in turn; nothing a previous candidate did (or failed to do)
changes a later candidate's treatment. -/
def pruneRootAttempts (now : Int) (root : List PartitionDir) : List PartitionDir :=
  root.filter (pruneAttemptsDelete now)

/-- The entries of one root that survive one sweep: those for which no
deletion is attempted, plus those whose `os.RemoveAll` failed (the error is
logged and the sweep continues). -/
def pruneRootSurvivors (now : Int) (root : List PartitionDir) : List PartitionDir :=
  root.filter (fun p => !(pruneAttemptsDelete now p) || p.removeFails)

/-- `Prune` (ghcache.go lines 271-307) over the two roots `data` and
`temp`: the surviving entries of each root. Subtree recursion
(`os.RemoveAll`) is opaque to the embedding: deleting an entry removes the
whole partition. -/
def Prune (now : Int) (dataRoot tempRoot : List PartitionDir) :
    List PartitionDir × List PartitionDir :=
  (pruneRootSurvivors now dataRoot, pruneRootSurvivors now tempRoot)

/-- One root's sweep, case by case: an expired directory is attempted and
(when removal succeeds) deleted; a future-dated one is untouched; one with
an unreadable or unparsable metadata file is skipped; and every entry's
treatment depends only on that entry, so no entry's failure aborts the
sweep for the others. -/
theorem pruneRoot_spec (now : Int) (root : List PartitionDir) :
    (∀ p ∈ root, ∀ t : Int, p.isDir = true → p.metadata = MetaRead.parsed t → t ≤ now →
      p ∈ pruneRootAttempts now root ∧
        (p.removeFails = false → p ∉ pruneRootSurvivors now root))
    ∧ (∀ p ∈ root, ∀ t : Int, p.metadata = MetaRead.parsed t → now < t →
      p ∈ pruneRootSurvivors now root ∧ p ∉ pruneRootAttempts now root)
    ∧ (∀ p ∈ root, p.metadata = MetaRead.unreadable ∨ p.metadata = MetaRead.unparsable →
      p ∈ pruneRootSurvivors now root ∧ p ∉ pruneRootAttempts now root)
    ∧ (∀ p ∈ root, (p ∈ pruneRootAttempts now root ↔ pruneAttemptsDelete now p = true)) := by
  refine ⟨fun p hp t hdir hmeta hexp => ⟨?_, fun hrm => ?_⟩,
          fun p hp t hmeta hfut => ⟨?_, ?_⟩,
          fun p hp hbad => ⟨?_, ?_⟩,
          fun p hp => ?_⟩
  · simp only [pruneRootAttempts, List.mem_filter]
    refine ⟨hp, ?_⟩
    simp [pruneAttemptsDelete, hdir, hmeta]
    omega
  · simp only [pruneRootSurvivors, List.mem_filter]
    intro hmem
    have hdel : pruneAttemptsDelete now p = true := by
      simp [pruneAttemptsDelete, hdir, hmeta]
      omega
    simp [hdel, hrm] at hmem
  · simp only [pruneRootSurvivors, List.mem_filter]
    refine ⟨hp, ?_⟩
    simp [pruneAttemptsDelete, hmeta, hfut]
  · simp only [pruneRootAttempts, List.mem_filter]
    intro hmem
    have := hmem.2
    simp [pruneAttemptsDelete, hmeta, hfut] at this
  · simp only [pruneRootSurvivors, List.mem_filter]
    refine ⟨hp, ?_⟩
    rcases hbad with hb | hb <;> simp [pruneAttemptsDelete, hb]
  · simp only [pruneRootAttempts, List.mem_filter]
    intro hmem
    have := hmem.2
    rcases hbad with hb | hb <;> simp [pruneAttemptsDelete, hb] at this
  · simp only [pruneRootAttempts, List.mem_filter]
    exact ⟨fun h => h.2, fun h => ⟨hp, h⟩⟩

/-- Claim C5: in a pruning sweep over the primary ("data") and temporary
("temp") roots, a partition directory whose metadata parses to an
`expires_at` at or before the injected current time has its deletion
attempted and, when removal succeeds, is deleted; one whose `expires_at` is
strictly in the future is untouched; one with no readable or no parsable
metadata file is skipped and never deleted; and each entry's fate is a
function of that entry alone, so a failure on one partition does not abort
the sweep for the rest. -/
theorem Prune_sweep (now : Int) (dataRoot tempRoot : List PartitionDir) :
    (∀ p ∈ dataRoot, ∀ t : Int, p.isDir = true → p.metadata = MetaRead.parsed t → t ≤ now →
      p ∈ pruneRootAttempts now dataRoot ∧
        (p.removeFails = false → p ∉ (Prune now dataRoot tempRoot).1))
    ∧ (∀ p ∈ dataRoot, ∀ t : Int, p.metadata = MetaRead.parsed t → now < t →
      p ∈ (Prune now dataRoot tempRoot).1 ∧ p ∉ pruneRootAttempts now dataRoot)
    ∧ (∀ p ∈ dataRoot, p.metadata = MetaRead.unreadable ∨ p.metadata = MetaRead.unparsable →
      p ∈ (Prune now dataRoot tempRoot).1 ∧ p ∉ pruneRootAttempts now dataRoot)
    ∧ (∀ p ∈ dataRoot, (p ∈ pruneRootAttempts now dataRoot ↔ pruneAttemptsDelete now p = true))
    ∧ (∀ p ∈ tempRoot, ∀ t : Int, p.isDir = true → p.metadata = MetaRead.parsed t → t ≤ now →
      p ∈ pruneRootAttempts now tempRoot ∧
        (p.removeFails = false → p ∉ (Prune now dataRoot tempRoot).2))
    ∧ (∀ p ∈ tempRoot, ∀ t : Int, p.metadata = MetaRead.parsed t → now < t →
      p ∈ (Prune now dataRoot tempRoot).2 ∧ p ∉ pruneRootAttempts now tempRoot)
    ∧ (∀ p ∈ tempRoot, p.metadata = MetaRead.unreadable ∨ p.metadata = MetaRead.unparsable →
      p ∈ (Prune now dataRoot tempRoot).2 ∧ p ∉ pruneRootAttempts now tempRoot)
    ∧ (∀ p ∈ tempRoot, (p ∈ pruneRootAttempts now tempRoot ↔ pruneAttemptsDelete now p = true)) := by
  obtain ⟨d1, d2, d3, d4⟩ := pruneRoot_spec now dataRoot
  obtain ⟨t1, t2, t3, t4⟩ := pruneRoot_spec now tempRoot
  exact ⟨d1, d2, d3, d4, t1, t2, t3, t4⟩

/-- An outcome a delegate call can produce: a response body or an error.
Copies handed to waiters are fresh values of this type. -/
inductive Outcome
  | response (body : String)
  | failure (e : GoError)
deriving DecidableEq

/-- Modelled from the spec: the `requestCoalescer` type and its `RoundTrip`
are not under src/ — only their construction site (`NewFromCache`,
ghcache.go lines 354-365, with `keys: make(map[string]*responseWaiter)`) is.
Following spec §4.6 and §3 "Response Waiter Group", the coalescer's state
for one coalescing key within one partition: whether an executor is in
flight, the callers registered on it, how often the delegate chain was
invoked, and the (caller, outcome) deliveries made so far. -/
structure CoalescerState where
  inflight : Bool
  waiters : List Nat
  invocations : Nat
  delivered : List (Nat × Outcome)
deriving DecidableEq

/-- Modelled from the spec: a fresh copy of an outcome, built value by
value, so each waiter consumes its own copy ("copies must not share mutable
buffers", spec §4.6). -/
def copyOutcome : Outcome → Outcome
  | .response body => .response body
  | .failure e => .failure e

/-- Modelled from the spec (§4.6): a request with this coalescing key
arrives. If an identical key is already in flight, the caller registers as
an additional waiter; otherwise it becomes the sole executor — it registers
the key and invokes the delegate chain (counted in `invocations`). -/
def coalescerArrive (s : CoalescerState) (caller : Nat) : CoalescerState :=
  if s.inflight then
    { s with waiters := s.waiters ++ [caller] }
  else
    { inflight := true, waiters := [caller],
      invocations := s.invocations + 1, delivered := s.delivered }

/-- Modelled from the spec (§4.6): the in-flight delegate call completes
with `outcome`. Every waiter registered before completion receives its own
copy of the outcome, and the key is deregistered. -/
def coalescerComplete (s : CoalescerState) (outcome : Outcome) : CoalescerState :=
  { inflight := false, waiters := [],
    invocations := s.invocations,
    delivered := s.delivered ++ s.waiters.map (fun c => (c, copyOutcome outcome)) }

/-- The idle coalescer: no key in flight, nothing delivered. -/
def coalescerIdle : CoalescerState := ⟨false, [], 0, []⟩

/-- Modelled from the spec: N concurrent identical requests are the ones
whose arrivals (in any interleaving order — `callers` is an arbitrary
sequence) all precede the single delegate completion. -/
def coalescerRun (callers : List Nat) (outcome : Outcome) : CoalescerState :=
  coalescerComplete (callers.foldl coalescerArrive coalescerIdle) outcome

/-- Arrivals on a state already in flight only append to the waiter list:
the delegate is not invoked again. -/
theorem coalescerArrive_foldl_inflight (callers : List Nat) :
    ∀ s : CoalescerState, s.inflight = true →
      callers.foldl coalescerArrive s =
        { s with waiters := s.waiters ++ callers } := by
  induction callers with
  | nil => intro s _; simp
  | cons c rest ih =>
      intro s hs
      have harr : coalescerArrive s c = { s with waiters := s.waiters ++ [c] } := by
        simp [coalescerArrive, hs]
      calc (c :: rest).foldl coalescerArrive s
          = rest.foldl coalescerArrive (coalescerArrive s c) := rfl
        _ = { s with waiters := (s.waiters ++ [c]) ++ rest } := by
              rw [harr, ih { s with waiters := s.waiters ++ [c] } hs]
        _ = { s with waiters := s.waiters ++ (c :: rest) } := by
              simp

/-- Claim C1: for every set of N ≥ 2 concurrent identical requests within
one partition — every arrival order `callers` of length ≥ 2 whose arrivals
all precede the completion — the delegate chain is invoked exactly once,
and every one of the N callers is delivered its own independently built
copy of the one identical outcome. -/
theorem coalescer_invokes_once (callers : List Nat) (outcome : Outcome)
    (hn : 2 ≤ callers.length) :
    (coalescerRun callers outcome).invocations = 1
    ∧ (coalescerRun callers outcome).delivered =
        callers.map (fun c => (c, copyOutcome outcome)) := by
  match callers, hn with
  | c :: rest, _ =>
    have h1 : coalescerArrive coalescerIdle c = ⟨true, [c], 1, []⟩ := by
      simp [coalescerArrive, coalescerIdle]
    have h2 : (c :: rest).foldl coalescerArrive coalescerIdle =
        { inflight := true, waiters := [c] ++ rest, invocations := 1, delivered := [] } := by
      calc (c :: rest).foldl coalescerArrive coalescerIdle
          = rest.foldl coalescerArrive (coalescerArrive coalescerIdle c) := rfl
        _ = _ := by rw [h1]; exact coalescerArrive_foldl_inflight rest ⟨true, [c], 1, []⟩ rfl
    unfold coalescerRun
    rw [h2]
    simp [coalescerComplete]

/-- Witness for C1: two concurrent identical requests, one invocation, both
callers delivered a copy of the same response. -/
theorem coalescer_invokes_once_witness :
    (coalescerRun [0, 1] (.response "body")).invocations = 1
    ∧ (coalescerRun [0, 1] (.response "body")).delivered =
        [(0, copyOutcome (.response "body")), (1, copyOutcome (.response "body"))] :=
  coalescer_invokes_once [0, 1] (.response "body") (by decide)

/-- The decimal digit character for `d` (0-9). -/
def digitToChar (d : Nat) : Char := Char.ofNat (48 + d)

/-- The value of a decimal digit character, or `none`. -/
def parseDigit (c : Char) : Option Nat :=
  if 48 ≤ c.toNat ∧ c.toNat ≤ 57 then some (c.toNat - 48) else none

/-- Two-digit zero-padded decimal, as Go's time formatting emits for month,
day, hour, minute and second fields. -/
def pad2 (n : Nat) : List Char := [digitToChar (n / 10), digitToChar (n % 10)]

/-- Four-digit zero-padded decimal, as Go's time formatting emits for the
year field. -/
def pad4 (n : Nat) : List Char :=
  [digitToChar (n / 1000), digitToChar (n / 100 % 10),
   digitToChar (n / 10 % 10), digitToChar (n % 10)]

/-- Parse exactly two decimal digits, returning the value and the rest. -/
def parse2 : List Char → Option (Nat × List Char)
  | a :: b :: rest =>
      match parseDigit a, parseDigit b with
      | some x, some y => some (10 * x + y, rest)
      | _, _ => none
  | _ => none

/-- Parse exactly four decimal digits, returning the value and the rest. -/
def parse4 : List Char → Option (Nat × List Char)
  | a :: b :: c :: d :: rest =>
      match parseDigit a, parseDigit b, parseDigit c, parseDigit d with
      | some x, some y, some z, some w => some (1000 * x + 100 * y + 10 * z + w, rest)
      | _, _, _, _ => none
  | _ => none

/-- Consume one expected character. -/
def expectChar (c : Char) : List Char → Option (List Char)
  | a :: rest => if a = c then some rest else none
  | _ => none

theorem parseDigit_digitToChar (d : Nat) (hd : d ≤ 9) :
    parseDigit (digitToChar d) = some d := by
  interval_cases d <;> decide

theorem parse2_pad2 (n : Nat) (hn : n < 100) (rest : List Char) :
    parse2 (pad2 n ++ rest) = some (n, rest) := by
  have h1 : parseDigit (digitToChar (n / 10)) = some (n / 10) :=
    parseDigit_digitToChar _ (by omega)
  have h2 : parseDigit (digitToChar (n % 10)) = some (n % 10) :=
    parseDigit_digitToChar _ (by omega)
  simp [pad2, parse2, h1, h2]
  omega

theorem parse4_pad4 (n : Nat) (hn : n < 10000) (rest : List Char) :
    parse4 (pad4 n ++ rest) = some (n, rest) := by
  have h1 : parseDigit (digitToChar (n / 1000)) = some (n / 1000) :=
    parseDigit_digitToChar _ (by omega)
  have h2 : parseDigit (digitToChar (n / 100 % 10)) = some (n / 100 % 10) :=
    parseDigit_digitToChar _ (by omega)
  have h3 : parseDigit (digitToChar (n / 10 % 10)) = some (n / 10 % 10) :=
    parseDigit_digitToChar _ (by omega)
  have h4 : parseDigit (digitToChar (n % 10)) = some (n % 10) :=
    parseDigit_digitToChar _ (by omega)
  simp [pad4, parse4, h1, h2, h3, h4]
  omega

theorem expectChar_cons (c : Char) (rest : List Char) :
    expectChar c (c :: rest) = some rest := by
  simp [expectChar]

/-- A Go `time.Time` instant in UTC, by its calendar fields plus
sub-second nanoseconds (the part RFC3339 second-precision serialization
drops). -/
structure GoTime where
  year : Nat
  month : Nat
  day : Nat
  hour : Nat
  minute : Nat
  second : Nat
  nanos : Nat
deriving DecidableEq

/-- Go's zero time instant: January 1, year 1, 00:00:00 UTC. -/
def goZeroTime : GoTime := ⟨1, 1, 1, 0, 0, 0, 0⟩

/-- The instant truncated to second precision. -/
def truncToSecond (t : GoTime) : GoTime := { t with nanos := 0 }

/-- The field ranges of a calendar time Go can format (RFC3339 prints a
four-digit year). -/
def validGoTime (t : GoTime) : Prop :=
  t.year ≤ 9999 ∧ 1 ≤ t.month ∧ t.month ≤ 12 ∧ 1 ≤ t.day ∧ t.day ≤ 31
    ∧ t.hour ≤ 23 ∧ t.minute ≤ 59 ∧ t.second ≤ 59

instance (t : GoTime) : Decidable (validGoTime t) := by
  unfold validGoTime; infer_instance

/-- `t.Format(time.RFC3339)` for a UTC instant: second precision, "Z"
offset. -/
def rfc3339Format (t : GoTime) : List Char :=
  pad4 t.year ++ '-' ::
    (pad2 t.month ++ '-' ::
      (pad2 t.day ++ 'T' ::
        (pad2 t.hour ++ ':' ::
          (pad2 t.minute ++ ':' ::
            (pad2 t.second ++ ['Z'])))))

/-- `time.Parse(time.RFC3339, ...)` restricted to the "Z"-offset strings the
serializer emits: the digits and separators in exactly this shape, nothing
trailing. -/
def rfc3339Parse (cs : List Char) : Option GoTime :=
  match parse4 cs with
  | none => none
  | some (y, cs) =>
    match expectChar '-' cs with
    | none => none
    | some cs =>
      match parse2 cs with
      | none => none
      | some (mo, cs) =>
        match expectChar '-' cs with
        | none => none
        | some cs =>
          match parse2 cs with
          | none => none
          | some (d, cs) =>
            match expectChar 'T' cs with
            | none => none
            | some cs =>
              match parse2 cs with
              | none => none
              | some (h, cs) =>
                match expectChar ':' cs with
                | none => none
                | some cs =>
                  match parse2 cs with
                  | none => none
                  | some (mi, cs) =>
                    match expectChar ':' cs with
                    | none => none
                    | some cs =>
                      match parse2 cs with
                      | none => none
                      | some (s, cs) =>
                        match expectChar 'Z' cs with
                        | some [] => some ⟨y, mo, d, h, mi, s, 0⟩
                        | _ => none

theorem rfc3339_roundtrip (t : GoTime) (ht : validGoTime t) :
    rfc3339Parse (rfc3339Format t) = some (truncToSecond t) := by
  obtain ⟨hy, hmo1, hmo2, hd1, hd2, hh, hmi, hs⟩ := ht
  unfold rfc3339Format rfc3339Parse
  simp only [parse4_pad4 t.year (by omega), expectChar_cons,
    parse2_pad2 t.month (by omega), parse2_pad2 t.day (by omega),
    parse2_pad2 t.hour (by omega), parse2_pad2 t.minute (by omega),
    parse2_pad2 t.second (by omega)]
  rfl

/-- The JSON values the metadata file can hold. -/
inductive JsonValue
  | null
  | str (s : String)
  | obj (fields : List (String × JsonValue))

/-- The `cachePartitionMetadata` struct (ghcache.go lines 336-338): a
`metav1.Time` expiry under the JSON key "expires_at". -/
structure cachePartitionMetadata where
  ExpiresAt : GoTime
deriving DecidableEq

/-- `json.Marshal` of `cachePartitionMetadata` as `writecachePartitionMetadata`
(ghcache.go lines 309-332) performs it: `metav1.Time` marshals the zero
instant as JSON null and any other instant as its UTC RFC3339 string, which
truncates to second precision. The bytes written to the metadata file are
this value's rendering; file transport is byte-identity, so the write/read
pair composes marshal with unmarshal. -/
def marshalCachePartitionMetadata (m : cachePartitionMetadata) : JsonValue :=
  .obj [("expires_at",
    if m.ExpiresAt = goZeroTime then .null
    else .str ⟨rfc3339Format (truncToSecond m.ExpiresAt)⟩)]

/-- `json.Unmarshal` into `cachePartitionMetadata` as `Prune` (ghcache.go
lines 292-296) performs it: `metav1.Time` decodes JSON null as the zero
instant and a string by RFC3339 parsing; any other shape is a
deserialization error (`none`). -/
def unmarshalCachePartitionMetadata (j : JsonValue) : Option cachePartitionMetadata :=
  match j with
  | .obj [("expires_at", v)] =>
      match v with
      | .null => some ⟨goZeroTime⟩
      | .str s =>
          match rfc3339Parse s.data with
          | some t => some ⟨t⟩
          | none => none
      | _ => none
  | _ => none

/-- Claim C8: for every expiry instant (the non-nil `*time.Time` written by
`writecachePartitionMetadata`), serializing the partition metadata record
and deserializing the produced bytes yields the same expiry truncated to
second precision. -/
theorem cachePartitionMetadata_roundtrip (m : cachePartitionMetadata)
    (hv : validGoTime m.ExpiresAt) :
    unmarshalCachePartitionMetadata (marshalCachePartitionMetadata m) =
      some ⟨truncToSecond m.ExpiresAt⟩ := by
  unfold marshalCachePartitionMetadata unmarshalCachePartitionMetadata
  by_cases hz : m.ExpiresAt = goZeroTime
  · simp only [hz, if_pos rfl]
    rfl
  · simp only [if_neg hz]
    have h := rfc3339_roundtrip (truncToSecond m.ExpiresAt)
      ⟨hv.1, hv.2.1, hv.2.2.1, hv.2.2.2.1, hv.2.2.2.2.1,
       hv.2.2.2.2.2.1, hv.2.2.2.2.2.2.1, hv.2.2.2.2.2.2.2⟩
    simp only [truncToSecond] at h ⊢
    simp [h]

/-- Witness for C8: a concrete expiry, 2021-06-30T17:25:59.5Z (nanos 5e8),
round-trips to the same instant at second precision. -/
theorem cachePartitionMetadata_roundtrip_witness :
    validGoTime (⟨2021, 6, 30, 17, 25, 59, 500000000⟩ : GoTime)
    ∧ unmarshalCachePartitionMetadata
        (marshalCachePartitionMetadata ⟨⟨2021, 6, 30, 17, 25, 59, 500000000⟩⟩) =
      some ⟨truncToSecond ⟨2021, 6, 30, 17, 25, 59, 500000000⟩⟩ :=
  ⟨by decide, cachePartitionMetadata_roundtrip ⟨⟨2021, 6, 30, 17, 25, 59, 500000000⟩⟩ (by decide)⟩
